import Mathlib

/-!
Verification of the tmux-workspace Electron host
(`src/tex-workspace/electron/src/preload.js`): the sandboxed filesystem
gateway (set-directory, list-files, read-file, save-file, get-file-path,
get-file-mtime handlers) and the terminal session registry
(create-terminal, terminal-input, terminal-resize, close-terminal,
list-tmux-sessions handlers).

The JavaScript handlers are shallowly embedded as pure Lean functions.
Filesystem and process effects are passed in explicitly (as functions
standing for `fs.readdirSync`, `fs.readFileSync`, ..., and flags standing
for `pty.spawn` availability), and each handler additionally returns the
list of filesystem / handle operations it performed, so that "performs no
filesystem access" is a provable statement.
-/

/-! ### Model of the Node string and path helpers used by the handlers

The handlers run on a POSIX host (macOS) with `'/'` as the separator; the
models below implement the POSIX behavior of `path.join`, `path.resolve`,
`path.basename`, `path.extname`, `String.prototype.startsWith`,
`String.prototype.toLowerCase` (ASCII range, the only one exercised by
file names in the claims) and `parseInt`. Trailing-slash preservation of
`path.normalize` is not modelled (no claim exercises it). -/

/-- JS `s.startsWith(pre)`: code-unit prefix test. -/
def jsStartsWith (s pre : String) : Bool :=
  pre.data.isPrefixOf s.data

/-- ASCII lowering of one character, the fragment of JS `toLowerCase`
exercised by file names. -/
def lowerChar (c : Char) : Char :=
  if 65 ≤ c.toNat ∧ c.toNat ≤ 90 then Char.ofNat (c.toNat + 32) else c

/-- Lowercased character list of a string (JS `s.toLowerCase()`). -/
def lowerStr (s : String) : List Char :=
  s.data.map lowerChar

/-- Code-unit lexicographic `≤` on character lists; models the ordering
that `a.localeCompare(b) <= 0` induces on the ASCII names compared by the
listing sort. -/
def lexLe : List Char → List Char → Bool
  | [], _ => true
  | _ :: _, [] => false
  | a :: as, b :: bs =>
    if a.toNat < b.toNat then true
    else if a.toNat = b.toNat then lexLe as bs
    else false

/-- Split a character list on a separator character (JS `s.split(sep)`):
always returns at least one (possibly empty) group. -/
def splitChar (sep : Char) : List Char → List (List Char)
  | [] => [[]]
  | c :: cs =>
    match splitChar sep cs with
    | [] => [[c]]
    | g :: gs => if c = sep then [] :: g :: gs else (c :: g) :: gs

/-- The `'/'`-separated segments of a path string (empty segments from
leading / doubled slashes included, exactly as splitting produces them). -/
def segsOf (p : String) : List String :=
  (splitChar '/' p.data).map List.asString

/-- One step of POSIX path normalization over a reversed accumulator of
kept segments. `isAbs` tells whether the path being normalized is
absolute, in which case a `..` at the root is dropped; in a relative path
it is kept. Empty and `.` segments are dropped. -/
def addSeg (isAbs : Bool) (acc : List String) (seg : String) : List String :=
  if seg = "" ∨ seg = "." then acc
  else if seg = ".." then
    match acc with
    | [] => if isAbs then [] else [".."]
    | top :: rest => if top = ".." then seg :: top :: rest else rest
  else seg :: acc

/-- Normalized segment list (in order) of a segment sequence. -/
def normSegs (isAbs : Bool) (segs : List String) : List String :=
  (segs.foldl (addSeg isAbs) []).reverse

/-- `path.join(root, rel)` for an absolute `root`: concatenate the
segments and normalize as an absolute path. -/
def pathJoin (root rel : String) : String :=
  "/" ++ String.intercalate "/" (normSegs true (segsOf root ++ segsOf rel))

/-- `path.join(a, b)` for a relative `a` (used for the `path` field of
listing entries): concatenate and normalize as a relative path; the empty
result renders as `"."` as in Node. -/
def pathJoinRel (a b : String) : String :=
  match normSegs false (segsOf a ++ segsOf b) with
  | [] => "."
  | segs => String.intercalate "/" segs

/-- `path.resolve(p)` from the host process working directory `cwd`:
an absolute `p` is normalized on its own, a relative one is resolved
against `cwd`. -/
def pathResolve (cwd p : String) : String :=
  if p.data.head? = some '/' then
    "/" ++ String.intercalate "/" (normSegs true (segsOf p))
  else pathJoin cwd p

/-- `path.basename(p)`: the last nonempty segment, `""` for the root. -/
def basename (p : String) : String :=
  match ((segsOf p).filter (fun s => s ≠ "")).getLast? with
  | some s => s
  | none => ""

/-- `path.extname(name)` on a plain file name (no slashes): the suffix
from the last `.`, empty when there is no `.` or the only `.` is the
leading character (hidden-file marker). -/
def extname (name : String) : String :=
  let cs := name.data
  match ((List.range cs.length).filter
      (fun i => 0 < i ∧ (cs.drop i).head? = some '.')).getLast? with
  | some i => (cs.drop i).asString
  | none => ""

/-- Modelled from the spec: path-separator-aware containment of a
resolved absolute path under the root ("lexical containment after
resolution"): the path is the root itself or extends it past a `/`.
This is the check the spec's PathSandbox mandates; the code's actual
check is `jsStartsWith`, compared against this one in claim C1. -/
def underRootSepAware (root p : String) : Bool :=
  p = root || jsStartsWith p (root ++ "/")

/-! ### Filesystem gateway state and handler results -/

/-- A filesystem operation performed by a handler (which Node `fs` call
it made and on which absolute path). -/
inductive FsOp where
  | readdir (p : String)
  | readf (p : String)
  | writef (p : String)
  | statf (p : String)
  | existsf (p : String)
deriving DecidableEq, Repr

/-- One child of a directory as surfaced by
`fs.readdirSync(p, { withFileTypes: true })`. -/
structure DirEnt where
  name : String
  isDir : Bool
deriving DecidableEq, Repr

/-- The FileEntry view produced by the `list-files` handler. -/
structure FileEntry where
  name : String
  path : String
  isDirectory : Bool
  isText : Bool
  isPdf : Bool
  isImage : Bool
deriving DecidableEq, Repr

/-- `ALLOWED_EXTENSIONS` from the source. -/
def ALLOWED_EXTENSIONS : List String :=
  [".tex", ".bib", ".sty", ".cls", ".txt", ".md", ".pdf", ".jpg",
   ".jpeg", ".png", ".gif", ".svg"]

/-- `TEXT_EXTENSIONS` from the source. -/
def TEXT_EXTENSIONS : List String :=
  [".tex", ".bib", ".sty", ".cls", ".txt", ".md"]

/-- `IMAGE_EXTENSIONS` inline list from the source's `isImage` field. -/
def IMAGE_EXTENSIONS : List String :=
  [".jpg", ".jpeg", ".png", ".gif", ".svg"]

/-- The comparator of the `list-files` sort as a boolean `≤`:
directories strictly before files, inside a group case-insensitive
code-unit order on the name (`a.name.toLowerCase().localeCompare(...)`). -/
def fileCmpLe (a b : FileEntry) : Bool :=
  if a.isDirectory != b.isDirectory then a.isDirectory
  else lexLe (lowerStr a.name) (lowerStr b.name)

/-- The sorting relation of the listing as a `Prop`. -/
def fileLe (a b : FileEntry) : Prop :=
  fileCmpLe a b = true

instance : DecidableRel fileLe := fun a b => by
  unfold fileLe; infer_instance

/-- The entry-processing pipeline of the `list-files` handler: drop
hidden names, drop files with disallowed extensions, project to
FileEntry, sort with the directories-first case-insensitive comparator.
The JS engine's sort is stable; `List.insertionSort` agrees with it on
every input whose comparator ties are between identical keys (ties play
no role in any claim). -/
def processEntries (relativePath : String) (entries : List DirEnt) :
    List FileEntry :=
  let kept := (entries.filter (fun e => !(jsStartsWith e.name "."))).filter
    (fun e =>
      if e.isDir then true
      else (lowerStr (extname e.name)).asString ∈ ALLOWED_EXTENSIONS)
  let mapped := kept.map (fun e =>
    let ext := (lowerStr (extname e.name)).asString
    { name := e.name
      path := if relativePath = "" then e.name
              else pathJoinRel relativePath e.name
      isDirectory := e.isDir
      isText := !e.isDir && decide (ext ∈ TEXT_EXTENSIONS)
      isPdf := ext = ".pdf"
      isImage := decide (ext ∈ IMAGE_EXTENSIONS) })
  mapped.insertionSort fileLe

/-- Result of the `list-files` handler. -/
inductive ListRes where
  /-- `{ path, root, files }` success payload. -/
  | ok (path : String) (root : String) (files : List FileEntry)
  /-- `{ error: 'No directory opened', files: [] }`. -/
  | errNoDir
  /-- `{ error: 'Invalid path', files: [] }`. -/
  | errInvalidPath
  /-- `{ error: e.message, files: [] }` from the catch block. -/
  | errThrown
deriving DecidableEq, Repr

/-- The `list-files` handler. `readdir p = none` models `readdirSync`
throwing; `some entries` models its successful result. -/
def listFiles (currentDirectory : Option String) (relativePath : String)
    (readdir : String → Option (List DirEnt)) : ListRes × List FsOp :=
  match currentDirectory with
  | none => (.errNoDir, [])
  | some root =>
    let fullPath := if relativePath = "" then root
                    else pathJoin root relativePath
    if !(jsStartsWith fullPath root) then (.errInvalidPath, [])
    else
      match readdir fullPath with
      | none => (.errThrown, [.readdir fullPath])
      | some entries =>
        (.ok relativePath root (processEntries relativePath entries),
         [.readdir fullPath])

/-- Result of the `read-file` handler. -/
inductive ReadRes where
  /-- `{ path, content, type: 'text' }`. -/
  | ok (path content : String)
  /-- `{ error: 'Invalid request' }` (no root set, or empty path). -/
  | errInvalidRequest
  /-- `{ error: 'Invalid path' }` (prefix check failed). -/
  | errInvalidPath
  /-- `{ error: e.message }` from the catch block. -/
  | errThrown
deriving DecidableEq, Repr

/-- The `read-file` handler. `fsRead p = none` models `readFileSync`
throwing. -/
def readFile (currentDirectory : Option String) (relativePath : String)
    (fsRead : String → Option String) : ReadRes × List FsOp :=
  match currentDirectory with
  | none => (.errInvalidRequest, [])
  | some root =>
    if relativePath = "" then (.errInvalidRequest, [])
    else
      let fullPath := pathJoin root relativePath
      if !(jsStartsWith fullPath root) then (.errInvalidPath, [])
      else
        match fsRead fullPath with
        | some content => (.ok relativePath content, [.readf fullPath])
        | none => (.errThrown, [.readf fullPath])

/-- Result of the `save-file` handler. -/
inductive SaveRes where
  /-- `{ status: 'ok', path }`. -/
  | ok (path : String)
  | errInvalidRequest
  | errInvalidPath
  | errThrown
deriving DecidableEq, Repr

/-- The `save-file` handler. `fsWriteOk p = false` models `writeFileSync`
throwing. -/
def saveFile (currentDirectory : Option String) (relativePath : String)
    (fsWriteOk : String → Bool) : SaveRes × List FsOp :=
  match currentDirectory with
  | none => (.errInvalidRequest, [])
  | some root =>
    if relativePath = "" then (.errInvalidRequest, [])
    else
      let fullPath := pathJoin root relativePath
      if !(jsStartsWith fullPath root) then (.errInvalidPath, [])
      else
        if fsWriteOk fullPath then (.ok relativePath, [.writef fullPath])
        else (.errThrown, [.writef fullPath])

/-- The `get-file-path` handler: `null` is `none`. The short-circuit
`!startsWith || !existsSync` means `existsSync` is only consulted (an
`FsOp` only recorded) after the prefix check passed. -/
def getFilePath (currentDirectory : Option String) (relativePath : String)
    (fsExists : String → Bool) : Option String × List FsOp :=
  match currentDirectory with
  | none => (none, [])
  | some root =>
    if relativePath = "" then (none, [])
    else
      let fullPath := pathJoin root relativePath
      if !(jsStartsWith fullPath root) then (none, [])
      else if !(fsExists fullPath) then (none, [.existsf fullPath])
      else (some fullPath, [.existsf fullPath])

/-- Result of the `get-file-mtime` handler. -/
inductive MtimeRes where
  /-- `{ mtime, path }`. -/
  | ok (mtime : Int) (path : String)
  /-- `{ mtime: null }`. -/
  | noMtime
deriving DecidableEq, Repr

/-- The `get-file-mtime` handler. `fsStat p = none` models `statSync`
throwing; `some m` carries `stat.mtimeMs` (integral milliseconds). -/
def getFileMtime (currentDirectory : Option String) (relativePath : String)
    (fsStat : String → Option Int) : MtimeRes × List FsOp :=
  match currentDirectory with
  | none => (.noMtime, [])
  | some root =>
    if relativePath = "" then (.noMtime, [])
    else
      let fullPath := pathJoin root relativePath
      if !(jsStartsWith fullPath root) then (.noMtime, [])
      else
        match fsStat fullPath with
        | some m => (.ok m relativePath, [.statf fullPath])
        | none => (.noMtime, [.statf fullPath])

/-- Result of the `set-directory` handler. -/
inductive SetDirRes where
  /-- `{ path, name }`. -/
  | ok (path name : String)
  /-- `{ error: 'Directory not found' }`. -/
  | errNotFound
deriving DecidableEq, Repr

/-- The `set-directory` handler: tilde expansion
(`dirPath.replace(/^~/, os.homedir())`), `path.resolve`, then the
existence-and-directory check (`fs.existsSync(p) &&
fs.statSync(p).isDirectory()`, modelled by the single predicate
`fsIsDir`). Returns the new `currentDirectory` and the result. -/
def setDirectory (fsIsDir : String → Bool) (homedir cwd : String)
    (currentDirectory : Option String) (dirPath : String) :
    Option String × SetDirRes :=
  let expanded := if dirPath.data.head? = some '~' then
      homedir ++ (dirPath.data.drop 1).asString
    else dirPath
  let fullPath := pathResolve cwd expanded
  if fsIsDir fullPath then (some fullPath, .ok fullPath (basename fullPath))
  else (currentDirectory, .errNotFound)

/-! ### Terminal session registry (`terminals` Map and its handlers) -/

/-- One live PTY handle stored in the `terminals` Map. `pid` identifies
the spawned OS process; `writeOk` / `resizeOk` say whether
`term.write` / `term.resize` on this handle succeed or throw (the
behavior of the underlying node-pty handle, fixed per handle in this
model). -/
structure Handle where
  pid : Nat
  writeOk : Bool
  resizeOk : Bool
deriving DecidableEq, Repr

/-- The `terminals` JS Map, modelled by its lookup function
(`Map.get`); `set` and `delete` are pointwise updates. -/
def Registry := String → Option Handle

/-- `terminals.set(id, h)`. -/
def rset (id : String) (h : Handle) (m : Registry) : Registry :=
  fun k => if k = id then some h else m k

/-- `terminals.delete(id)`. -/
def rdelete (id : String) (m : Registry) : Registry :=
  fun k => if k = id then none else m k

/-- Host-side registry state: the Map plus a fresh-pid counter standing
for the OS allocating a new process on each successful spawn. -/
structure TermSt where
  terminals : Registry
  nextPid : Nat

/-- The `options` argument of `create-terminal`. -/
structure TermOptions where
  type : Option String
  session : Option String
  cols : Option Nat
  rows : Option Nat
deriving DecidableEq, Repr

/-- Host environment of the spawn: `process.env.SHELL`, `os.homedir()`,
whether `require('node-pty')` succeeded, whether `pty.spawn` succeeds,
and the write/resize behavior of the handle a successful spawn returns. -/
structure SpawnEnv where
  shellEnv : Option String
  homedir : String
  ptyAvailable : Bool
  spawnOk : Bool
  writeOk : Bool
  resizeOk : Bool
deriving DecidableEq, Repr

/-- JS truthiness of a string-or-undefined value (only the empty string
is falsy). -/
def jsTruthyStr : Option String → Bool
  | none => false
  | some s => s ≠ ""

/-- What `pty.spawn` is asked to launch. -/
structure SpawnSpec where
  shell : String
  args : List String
  cwd : String
  cols : Nat
  rows : Nat
deriving DecidableEq, Repr

/-- The spawn policy of `create-terminal`: command and arguments from
`options.type === 'tmux' && options.session`, working directory
`currentDirectory || os.homedir()`, dimensions
`options.cols || 80` / `options.rows || 24`. -/
def spawnPlan (currentDirectory : Option String) (env : SpawnEnv)
    (options : TermOptions) : SpawnSpec :=
  let cwd := match currentDirectory with
    | some c => if c = "" then env.homedir else c
    | none => env.homedir
  let tmuxBranch := options.type = some "tmux" ∧
    jsTruthyStr options.session = true
  let shell := if tmuxBranch then "/opt/homebrew/bin/tmux"
    else match env.shellEnv with
      | some s => if s = "" then "/bin/bash" else s
      | none => "/bin/bash"
  let args := if tmuxBranch then
      ["attach", "-t", options.session.getD ""]
    else ["-l"]
  { shell := shell, args := args, cwd := cwd
    cols := match options.cols with
      | some c => if c = 0 then 80 else c
      | none => 80
    rows := match options.rows with
      | some r => if r = 0 then 24 else r
      | none => 24 }

/-- An operation performed on a PTY process / handle by a handler. -/
inductive TermOp where
  | spawned (spec : SpawnSpec) (pid : Nat)
  | wrote (pid : Nat) (data : String)
  | resized (pid : Nat) (cols rows : Nat)
  | killed (pid : Nat)
deriving DecidableEq, Repr

/-- Result of the `create-terminal` handler. -/
inductive CreateRes where
  /-- `{ status: 'ok', termId }`. -/
  | ok (termId : String)
  /-- `{ error: 'Terminal not available' }`. -/
  | errNotAvailable
  /-- `{ error: e.message }` when `pty.spawn` throws. -/
  | errSpawn
deriving DecidableEq, Repr

/-- The `create-terminal` handler: no duplicate-ID check is present in
the source; a successful spawn stores the new handle with
`terminals.set(termId, term)`, replacing any existing entry for
`termId`. -/
def createTerminal (st : TermSt) (currentDirectory : Option String)
    (env : SpawnEnv) (termId : String) (options : TermOptions) :
    TermSt × CreateRes × List TermOp :=
  if !env.ptyAvailable then (st, .errNotAvailable, [])
  else
    let spec := spawnPlan currentDirectory env options
    if !env.spawnOk then (st, .errSpawn, [])
    else
      let h : Handle :=
        { pid := st.nextPid, writeOk := env.writeOk
          resizeOk := env.resizeOk }
      ({ terminals := rset termId h st.terminals
         nextPid := st.nextPid + 1 },
       .ok termId, [.spawned spec h.pid])

/-- The `terminal-input` handler: look the id up; absent id is a no-op;
`term.write(data)` is attempted on a found handle, and if it throws the
catch block deletes the registry entry. -/
def terminalInput (st : TermSt) (termId : String) (data : String) :
    TermSt × List TermOp :=
  match st.terminals termId with
  | none => (st, [])
  | some term =>
    if term.writeOk then (st, [.wrote term.pid data])
    else ({ st with terminals := rdelete termId st.terminals },
          [.wrote term.pid data])

/-- The `terminal-resize` handler, same shape as `terminal-input` with
`term.resize(cols, rows)`. -/
def terminalResize (st : TermSt) (termId : String) (cols rows : Nat) :
    TermSt × List TermOp :=
  match st.terminals termId with
  | none => (st, [])
  | some term =>
    if term.resizeOk then (st, [.resized term.pid cols rows])
    else ({ st with terminals := rdelete termId st.terminals },
          [.resized term.pid cols rows])

/-- Result of the `close-terminal` handler: always `{ status: 'ok' }`. -/
inductive CloseRes where
  | ok
deriving DecidableEq, Repr

/-- The `close-terminal` handler: kill and delete when the id is live,
and return `{ status: 'ok' }` either way. -/
def closeTerminal (st : TermSt) (termId : String) :
    TermSt × CloseRes × List TermOp :=
  match st.terminals termId with
  | none => (st, .ok, [])
  | some term =>
    ({ st with terminals := rdelete termId st.terminals }, .ok,
     [.killed term.pid])

/-! ### Lifecycle of one created session

`create-terminal` wires `term.onExit` to delete the registry entry and
then push a `terminal-closed` event. The machine below follows one
successfully created session through the requests that can mention its
ID. PTY output and exit arrive on the coordinating event loop, so the
process's death and the delivery of its exit callback form one atomic
step (`exitEvt`); node-pty fires `onExit` at most once per handle, which
the machine encodes by making a second `exitEvt` a no-op. -/

/-- A step concerning one created session. -/
inductive LStep where
  /-- A `close-terminal` request for the session's ID. -/
  | close
  /-- Delivery of the handle's exit callback (spontaneous process death,
  or the death caused by an earlier `close`). -/
  | exitEvt
  /-- A `terminal-input` request for the session's ID. -/
  | input
  /-- A `terminal-resize` request for the session's ID. -/
  | resize
deriving DecidableEq, Repr

/-- Observable effects of one lifecycle step. -/
inductive LEvt where
  /-- A `terminal-closed` push event for the session's ID. -/
  | closedEvt
  /-- `term.write` reached the handle. -/
  | handleWrite
  /-- `term.resize` reached the handle. -/
  | handleResize
  /-- `term.kill` reached the handle. -/
  | handleKill
deriving DecidableEq, Repr

/-- Lifecycle state of one session: whether its registry entry is
present, whether its process is alive, and whether its exit callback has
fired. -/
structure LState where
  live : Bool
  procAlive : Bool
  exitFired : Bool
deriving DecidableEq, Repr

/-- State just after a successful `create-terminal`. -/
def linit : LState := { live := true, procAlive := true, exitFired := false }

/-- One step of the session lifecycle, following the source handlers:
`close` kills the process and deletes the entry (one handler turn);
`exitEvt` deletes the entry and then emits `terminal-closed`, and fires
at most once; `input` / `resize` reach the handle only through a live
registry entry. -/
def lstep (s : LState) : LStep → LState × List LEvt
  | .close =>
    if s.live then
      ({ s with live := false, procAlive := false }, [.handleKill])
    else (s, [])
  | .exitEvt =>
    if s.exitFired then (s, [])
    else ({ live := false, procAlive := false, exitFired := true },
          [.closedEvt])
  | .input => if s.live then (s, [.handleWrite]) else (s, [])
  | .resize => if s.live then (s, [.handleResize]) else (s, [])

/-- Run a sequence of lifecycle steps, accumulating emitted events. -/
def lrun (s : LState) : List LStep → LState × List LEvt
  | [] => (s, [])
  | st :: rest =>
    let r1 := lstep s st
    let r2 := lrun r1.1 rest
    (r2.1, r1.2 ++ r2.2)

/-! ### Tmux session discovery (`list-tmux-sessions`) -/

/-- One parsed tmux session: `windows` is `none` when `parseInt`
returned NaN (absent or non-numeric field). -/
structure TmuxSessionInfo where
  name : String
  windows : Option Int
  attached : Bool
deriving DecidableEq, Repr

/-- Whitespace stripped by JS `String.prototype.trim` (ASCII portion). -/
def isJsSpace (c : Char) : Bool :=
  c = ' ' ∨ c = '\t' ∨ c = '\n' ∨ c = '\r' ∨ c.toNat = 11 ∨ c.toNat = 12

/-- JS `s.trim()`. -/
def jsTrim (s : String) : String :=
  (((s.data.dropWhile isJsSpace).reverse.dropWhile isJsSpace).reverse).asString

/-- Numeric value of a decimal digit character. -/
def decDigit (c : Char) : Option Nat :=
  if 48 ≤ c.toNat ∧ c.toNat ≤ 57 then some (c.toNat - 48) else none

/-- Numeric value of a hexadecimal digit character. -/
def hexDigit (c : Char) : Option Nat :=
  match decDigit c with
  | some d => some d
  | none =>
    if 97 ≤ c.toNat ∧ c.toNat ≤ 102 then some (c.toNat - 87)
    else if 65 ≤ c.toNat ∧ c.toNat ≤ 70 then some (c.toNat - 55)
    else none

/-- Accumulate leading digits, stopping at the first non-digit. -/
def digitsAcc (digit : Char → Option Nat) (base : Nat) (acc : Nat) :
    List Char → Nat
  | [] => acc
  | c :: cs =>
    match digit c with
    | some d => digitsAcc digit base (acc * base + d) cs
    | none => acc

/-- JS `parseInt(s)` (no explicit radix): skip whitespace, optional
sign, `0x`/`0X` switches to hexadecimal, parse leading digits, NaN
(`none`) when no digit follows. -/
def jsParseInt (s : String) : Option Int :=
  let cs := s.data.dropWhile isJsSpace
  let signed : Bool × List Char :=
    match cs with
    | '-' :: r => (true, r)
    | '+' :: r => (false, r)
    | r => (false, r)
  let hexed : (Char → Option Nat) × Nat × List Char :=
    match signed.2 with
    | '0' :: 'x' :: r => (hexDigit, 16, r)
    | '0' :: 'X' :: r => (hexDigit, 16, r)
    | r => (decDigit, 10, r)
  match hexed.2.2 with
  | [] => none
  | c :: _ =>
    match hexed.1 c with
    | none => none
    | some _ =>
      let v : Int := Int.ofNat (digitsAcc hexed.1 hexed.2.1 0 hexed.2.2)
      some (if signed.1 then -v else v)

/-- Parse one line of `tmux list-sessions -F
"#{session_name}:#{session_windows}:#{session_attached}"` output, as the
handler's destructuring `[name, windows, attached] = line.split(':')`
does: missing fields are `undefined` (`parseInt` of it is NaN,
`undefined === '1'` is false); extra fields are dropped. -/
def parseTmuxLine (line : String) : TmuxSessionInfo :=
  let parts := (splitChar ':' line.data).map List.asString
  { name := parts.headD ""
    windows := match parts[1]? with
      | some w => jsParseInt w
      | none => none
    attached := parts[2]? = some "1" }

/-- The parsing phase of `list-tmux-sessions`:
`stdout.trim().split('\n')`, drop empty lines, parse each line. -/
def parseTmuxOutput (stdout : String) : List TmuxSessionInfo :=
  (((splitChar '\n' (jsTrim stdout).data).map List.asString).filter
    (fun line => line ≠ "")).map parseTmuxLine

/-- The `list-tmux-sessions` handler: `none` models `exec` reporting any
error (binary missing, non-zero exit, no server), resolved as `[]`;
`some stdout` is a successful invocation's output. -/
def listTmuxSessions (execResult : Option String) : List TmuxSessionInfo :=
  match execResult with
  | none => []
  | some stdout => parseTmuxOutput stdout

/-- Number of `terminal-closed` pushes in an event list. -/
def countClosed : List LEvt → Nat
  | [] => 0
  | LEvt.closedEvt :: es => countClosed es + 1
  | _ :: es => countClosed es

/-! ### Theorems for the claims -/

/-- C9: with a workspace root set, an empty relative path is rejected by
the falsy-argument guard of `read-file`, `save-file`, `get-file-path`
and `get-file-mtime` — error / null results, and no filesystem access
is performed. -/
theorem c9_empty_relative_path_rejected (root : String)
    (fsRead : String → Option String) (fsWriteOk : String → Bool)
    (fsExists : String → Bool) (fsStat : String → Option Int) :
    readFile (some root) "" fsRead = (.errInvalidRequest, [])
  ∧ saveFile (some root) "" fsWriteOk = (.errInvalidRequest, [])
  ∧ getFilePath (some root) "" fsExists = (none, [])
  ∧ getFileMtime (some root) "" fsStat = (.noMtime, []) := by
  refine ⟨?_, ?_, ?_, ?_⟩ <;>
    simp [readFile, saveFile, getFilePath, getFileMtime]

/-- C4: terminal input, resize and close directed at an ID with no live
registry entry are total functions that leave the registry state
unchanged, perform no handle operation, and (for close) return the
success result. -/
theorem c4_unknown_session_noop (st : TermSt) (id : String)
    (data : String) (cols rows : Nat)
    (habs : st.terminals id = none) :
    terminalInput st id data = (st, [])
  ∧ terminalResize st id cols rows = (st, [])
  ∧ closeTerminal st id = (st, .ok, []) := by
  refine ⟨?_, ?_, ?_⟩ <;>
    simp [terminalInput, terminalResize, closeTerminal, habs]

/-- Witness for C4 at a concrete empty registry. -/
theorem c4_unknown_session_noop_witness :
    (TermSt.mk (fun _ => none) 0).terminals "t9" = none
  ∧ terminalInput (TermSt.mk (fun _ => none) 0) "t9" "ls" =
      (TermSt.mk (fun _ => none) 0, [])
  ∧ closeTerminal (TermSt.mk (fun _ => none) 0) "t9" =
      (TermSt.mk (fun _ => none) 0, .ok, []) := by
  have h := c4_unknown_session_noop (TermSt.mk (fun _ => none) 0) "t9"
    "ls" 80 24 rfl
  exact ⟨rfl, h.1, h.2.2⟩

/-- C5: the tmux listing parser turns the colon-delimited fixture output
into the expected TmuxSessionInfo records (attached flag `"1"` meaning
attached), and a failed invocation yields the empty sequence. -/
theorem c5_tmux_listing_parse :
    listTmuxSessions (some "proj:3:1\nbuild:1:0\n") =
      [{ name := "proj", windows := some 3, attached := true },
       { name := "build", windows := some 1, attached := false }]
  ∧ listTmuxSessions none = [] := by
  constructor
  · decide
  · rfl

/-- C8: `set-directory` checks the resolved path with
`fs.existsSync && statSync().isDirectory()`; on success the workspace
root becomes that resolved path, on failure the handler returns the
error result and the previous root value is kept unchanged. -/
theorem c8_set_directory_checked (fsIsDir : String → Bool)
    (homedir cwd : String) (cur : Option String) (dirPath : String) :
    (fsIsDir (pathResolve cwd
        (if dirPath.data.head? = some '~' then
          homedir ++ (dirPath.data.drop 1).asString
        else dirPath)) = true →
      setDirectory fsIsDir homedir cwd cur dirPath =
        (some (pathResolve cwd
          (if dirPath.data.head? = some '~' then
            homedir ++ (dirPath.data.drop 1).asString
          else dirPath)),
         .ok (pathResolve cwd
          (if dirPath.data.head? = some '~' then
            homedir ++ (dirPath.data.drop 1).asString
          else dirPath))
          (basename (pathResolve cwd
            (if dirPath.data.head? = some '~' then
              homedir ++ (dirPath.data.drop 1).asString
            else dirPath)))))
  ∧ (fsIsDir (pathResolve cwd
        (if dirPath.data.head? = some '~' then
          homedir ++ (dirPath.data.drop 1).asString
        else dirPath)) = false →
      setDirectory fsIsDir homedir cwd cur dirPath =
        (cur, .errNotFound)) := by
  constructor <;> intro h <;> simp only [List.drop_one] at h <;>
    simp [setDirectory, h]

/-- Witness for C8: both branches at concrete inputs. -/
theorem c8_set_directory_checked_witness :
    setDirectory (fun p => p = "/w/proj") "/home/u" "/w" none "proj" =
      (some "/w/proj", .ok "/w/proj" "proj")
  ∧ setDirectory (fun p => p = "/w/proj") "/home/u" "/w"
      (some "/w/proj") "missing" = (some "/w/proj", .errNotFound) := by
  have h1 := (c8_set_directory_checked (fun p => p = "/w/proj")
    "/home/u" "/w" none "proj").1 (by decide)
  have h2 := (c8_set_directory_checked (fun p => p = "/w/proj")
    "/home/u" "/w" (some "/w/proj") "missing").2 (by decide)
  constructor
  · rw [h1]; decide
  · exact h2

/-- C10: a live handle whose `term.write` (resp. `term.resize`) throws
has its registry entry deleted by the catch block of the routing
handler, so every subsequent input or resize for that ID finds no entry
and performs no handle operation. -/
theorem c10_failed_handle_removed (st : TermSt) (id : String)
    (h : Handle) (d d2 : String) (c r c2 r2 : Nat)
    (hlive : st.terminals id = some h) :
    (h.writeOk = false →
      (terminalInput st id d).1.terminals id = none
      ∧ terminalInput (terminalInput st id d).1 id d2 =
          ((terminalInput st id d).1, [])
      ∧ terminalResize (terminalInput st id d).1 id c r =
          ((terminalInput st id d).1, []))
  ∧ (h.resizeOk = false →
      (terminalResize st id c r).1.terminals id = none
      ∧ terminalInput (terminalResize st id c r).1 id d2 =
          ((terminalResize st id c r).1, [])
      ∧ terminalResize (terminalResize st id c r).1 id c2 r2 =
          ((terminalResize st id c r).1, [])) := by
  constructor
  · intro hw
    simp [terminalInput, terminalResize, hlive, hw, rdelete]
  · intro hr
    simp [terminalInput, terminalResize, hlive, hr, rdelete]

/-- Witness for C10 at a concrete one-entry registry whose handle throws
on write and on resize. -/
theorem c10_failed_handle_removed_witness :
    (terminalInput
      (TermSt.mk (fun k => if k = "t" then some ⟨5, false, false⟩
        else none) 9) "t" "x").1.terminals "t" = none
  ∧ terminalInput
      (terminalInput (TermSt.mk (fun k => if k = "t" then
        some ⟨5, false, false⟩ else none) 9) "t" "x").1 "t" "y" =
      ((terminalInput (TermSt.mk (fun k => if k = "t" then
        some ⟨5, false, false⟩ else none) 9) "t" "x").1, []) := by
  have h := (c10_failed_handle_removed
    (TermSt.mk (fun k => if k = "t" then some ⟨5, false, false⟩
      else none) 9) "t" ⟨5, false, false⟩ "x" "y" 80 24 81 25
    (by simp)).1 rfl
  exact ⟨h.1, h.2.1⟩

/-- C1 counterexample: the relative path `"../ab"` under root `"/r/a"`
resolves to `"/r/ab"`, which is outside the root in the
path-separator-aware sense, yet the handlers' plain string-prefix check
accepts it: `read-file` performs a filesystem read and returns the file
content instead of a path-escape error. -/
theorem c1_counterexample :
    underRootSepAware "/r/a" (pathJoin "/r/a" "../ab") = false
  ∧ readFile (some "/r/a") "../ab"
      (fun p => if p = "/r/ab" then some "X" else none) =
      (.ok "../ab" "X", [.readf "/r/ab"]) := by
  constructor
  · decide
  · decide

/-- C1 amended: each file operation rejects with its path error and
performs no filesystem access exactly when the joined path fails the
plain string-prefix test against the root. The test is not
path-separator-aware, so escapes into a sibling directory whose name
extends the root string (see the counterexample) are accepted; `..`
segments are rejected only when the joined path loses the root as a
string prefix. -/
theorem c1_amended_string_prefix_rejection (root rel : String)
    (readdir : String → Option (List DirEnt))
    (fsRead : String → Option String) (fsWriteOk : String → Bool)
    (fsExists : String → Bool) (fsStat : String → Option Int)
    (hrel : rel ≠ "")
    (hesc : jsStartsWith (pathJoin root rel) root = false) :
    listFiles (some root) rel readdir = (.errInvalidPath, [])
  ∧ readFile (some root) rel fsRead = (.errInvalidPath, [])
  ∧ saveFile (some root) rel fsWriteOk = (.errInvalidPath, [])
  ∧ getFilePath (some root) rel fsExists = (none, [])
  ∧ getFileMtime (some root) rel fsStat = (.noMtime, []) := by
  refine ⟨?_, ?_, ?_, ?_, ?_⟩ <;>
    simp [listFiles, readFile, saveFile, getFilePath, getFileMtime,
      hrel, hesc]

/-- Witness for C1 amended: `"../../x"` under `"/r/a"` joins to `"/x"`,
which loses the string prefix, and every operation rejects without
filesystem access. -/
theorem c1_amended_string_prefix_rejection_witness :
    jsStartsWith (pathJoin "/r/a" "../../x") "/r/a" = false
  ∧ listFiles (some "/r/a") "../../x" (fun _ => none) =
      (.errInvalidPath, [])
  ∧ readFile (some "/r/a") "../../x" (fun _ => none) =
      (.errInvalidPath, [])
  ∧ getFileMtime (some "/r/a") "../../x" (fun _ => none) =
      (.noMtime, []) := by
  have h := c1_amended_string_prefix_rejection "/r/a" "../../x"
    (fun _ => none) (fun _ => none) (fun _ => false) (fun _ => false)
    (fun _ => none) (by decide) (by decide)
  exact ⟨by decide, h.1, h.2.1, h.2.2.2.2⟩

/-- C2 counterexample: with `"t1"` already live (handle pid 0), a second
`create-terminal` for `"t1"` does not fail with a duplicate-session
error: it returns the success result, spawns a new process (pid 1), and
overwrites the first session's registry entry. -/
theorem c2_counterexample :
    (createTerminal
        (TermSt.mk (fun k => if k = "t1" then some ⟨0, true, true⟩
          else none) 1)
        (some "/w")
        (SpawnEnv.mk (some "/bin/zsh") "/home/u" true true true true)
        "t1"
        (TermOptions.mk none none none none)).2.1 = CreateRes.ok "t1"
  ∧ (createTerminal
        (TermSt.mk (fun k => if k = "t1" then some ⟨0, true, true⟩
          else none) 1)
        (some "/w")
        (SpawnEnv.mk (some "/bin/zsh") "/home/u" true true true true)
        "t1"
        (TermOptions.mk none none none none)).2.2 =
      [TermOp.spawned (SpawnSpec.mk "/bin/zsh" ["-l"] "/w" 80 24) 1]
  ∧ (createTerminal
        (TermSt.mk (fun k => if k = "t1" then some ⟨0, true, true⟩
          else none) 1)
        (some "/w")
        (SpawnEnv.mk (some "/bin/zsh") "/home/u" true true true true)
        "t1"
        (TermOptions.mk none none none none)).1.terminals "t1" =
      some ⟨1, true, true⟩
  ∧ (TermSt.mk (fun k => if k = "t1" then some ⟨0, true, true⟩
      else none) 1).terminals "t1" = some ⟨0, true, true⟩ := by
  refine ⟨by decide, by decide, ?_, by decide⟩
  simp [createTerminal, rset]

/-- C2 amended: a second `create(id, options)` with a live entry for
`id` does not fail and is not a no-op — when the PTY backend is present
and the spawn succeeds it returns the success result, spawns a fresh
process, and replaces the existing registry entry with the new handle;
entries of other IDs are untouched (the first session's process is not
killed, but it is no longer reachable through the registry). -/
theorem c2_amended_duplicate_create_overwrites (st : TermSt)
    (cur : Option String) (env : SpawnEnv) (id : String)
    (opts : TermOptions) (h : Handle)
    (_hlive : st.terminals id = some h)
    (hpty : env.ptyAvailable = true) (hspawn : env.spawnOk = true) :
    (createTerminal st cur env id opts).2.1 = .ok id
  ∧ (createTerminal st cur env id opts).2.2 =
      [.spawned (spawnPlan cur env opts) st.nextPid]
  ∧ (createTerminal st cur env id opts).1.terminals id =
      some ⟨st.nextPid, env.writeOk, env.resizeOk⟩
  ∧ (∀ k, k ≠ id →
      (createTerminal st cur env id opts).1.terminals k =
        st.terminals k) := by
  refine ⟨?_, ?_, ?_, ?_⟩ <;>
    simp [createTerminal, hpty, hspawn, rset]
  intro k hk
  simp [hk]

/-- Witness for C2 amended at a concrete registry with a live entry. -/
theorem c2_amended_duplicate_create_overwrites_witness :
    (createTerminal
        (TermSt.mk (fun k => if k = "a" then some ⟨3, true, true⟩
          else none) 7)
        none
        (SpawnEnv.mk none "/home/u" true true true false)
        "a"
        (TermOptions.mk none none none none)).2.1 = CreateRes.ok "a"
  ∧ (createTerminal
        (TermSt.mk (fun k => if k = "a" then some ⟨3, true, true⟩
          else none) 7)
        none
        (SpawnEnv.mk none "/home/u" true true true false)
        "a"
        (TermOptions.mk none none none none)).1.terminals "a" =
      some ⟨7, true, false⟩ := by
  have h := c2_amended_duplicate_create_overwrites
    (TermSt.mk (fun k => if k = "a" then some ⟨3, true, true⟩
      else none) 7)
    none (SpawnEnv.mk none "/home/u" true true true false) "a"
    (TermOptions.mk none none none none) ⟨3, true, true⟩
    (by simp) rfl rfl
  exact ⟨h.1, h.2.2.1⟩

/-- C6: the spawn policy of `create-terminal` — tmux options launch the
tmux binary with `attach -t <session>`; otherwise the configured shell
(`process.env.SHELL`, falling back to `/bin/bash`) with the login flag;
the working directory is the workspace root or, when unset, the home
directory; absent `cols` / `rows` default to 80 × 24. -/
theorem c6_spawn_policy (cur : Option String) (env : SpawnEnv)
    (opts : TermOptions) :
    (∀ s, opts.type = some "tmux" → opts.session = some s → s ≠ "" →
      (spawnPlan cur env opts).shell = "/opt/homebrew/bin/tmux"
      ∧ (spawnPlan cur env opts).args = ["attach", "-t", s])
  ∧ (¬(opts.type = some "tmux" ∧ jsTruthyStr opts.session = true) →
      (spawnPlan cur env opts).args = ["-l"]
      ∧ (∀ sh, env.shellEnv = some sh → sh ≠ "" →
          (spawnPlan cur env opts).shell = sh)
      ∧ (env.shellEnv = none →
          (spawnPlan cur env opts).shell = "/bin/bash"))
  ∧ (∀ c, cur = some c → c ≠ "" → (spawnPlan cur env opts).cwd = c)
  ∧ (cur = none → (spawnPlan cur env opts).cwd = env.homedir)
  ∧ (opts.cols = none → (spawnPlan cur env opts).cols = 80)
  ∧ (opts.rows = none → (spawnPlan cur env opts).rows = 24) := by
  refine ⟨?_, ?_, ?_, ?_, ?_, ?_⟩
  · intro s htype hsess hne
    have hts : jsTruthyStr (some s) = true := by
      simp [jsTruthyStr, hne]
    constructor <;> simp [spawnPlan, htype, hsess, hts]
  · intro hnot
    refine ⟨by simp [spawnPlan, hnot], ?_, ?_⟩
    · intro sh hsh hne
      simp [spawnPlan, hnot, hsh, hne]
    · intro hsh
      simp [spawnPlan, hnot, hsh]
  · intro c hc hne
    simp [spawnPlan, hc, hne]
  · intro hc
    simp [spawnPlan, hc]
  · intro hcols
    simp [spawnPlan, hcols]
  · intro hrows
    simp [spawnPlan, hrows]

/-- Witness for C6: the tmux branch and the plain-shell branch at
concrete option records. -/
theorem c6_spawn_policy_witness :
    (spawnPlan (some "/w")
        (SpawnEnv.mk (some "/bin/zsh") "/home/u" true true true true)
        (TermOptions.mk (some "tmux") (some "proj") none none)).shell =
      "/opt/homebrew/bin/tmux"
  ∧ (spawnPlan (some "/w")
        (SpawnEnv.mk (some "/bin/zsh") "/home/u" true true true true)
        (TermOptions.mk (some "tmux") (some "proj") none none)).args =
      ["attach", "-t", "proj"]
  ∧ (spawnPlan none
        (SpawnEnv.mk (some "/bin/zsh") "/home/u" true true true true)
        (TermOptions.mk none none none none)).args = ["-l"]
  ∧ (spawnPlan none
        (SpawnEnv.mk (some "/bin/zsh") "/home/u" true true true true)
        (TermOptions.mk none none none none)).cwd = "/home/u"
  ∧ (spawnPlan none
        (SpawnEnv.mk (some "/bin/zsh") "/home/u" true true true true)
        (TermOptions.mk none none none none)).cols = 80
  ∧ (spawnPlan none
        (SpawnEnv.mk (some "/bin/zsh") "/home/u" true true true true)
        (TermOptions.mk none none none none)).rows = 24 := by
  have h1 := (c6_spawn_policy (some "/w")
    (SpawnEnv.mk (some "/bin/zsh") "/home/u" true true true true)
    (TermOptions.mk (some "tmux") (some "proj") none none)).1 "proj"
    rfl rfl (by decide)
  have h2 := c6_spawn_policy none
    (SpawnEnv.mk (some "/bin/zsh") "/home/u" true true true true)
    (TermOptions.mk none none none none)
  exact ⟨h1.1, h1.2, (h2.2.1 (by simp [jsTruthyStr])).1,
    h2.2.2.2.1 rfl, h2.2.2.2.2.1 rfl, h2.2.2.2.2.2 rfl⟩

/-- The code-unit lexicographic order is total. -/
theorem lexLe_total (xs : List Char) : ∀ ys : List Char,
    lexLe xs ys = true ∨ lexLe ys xs = true := by
  induction xs with
  | nil => intro ys; left; rfl
  | cons a as ih =>
    intro ys
    cases ys with
    | nil => right; rfl
    | cons b bs =>
      by_cases h1 : a.toNat < b.toNat
      · left; simp [lexLe, h1]
      · by_cases h2 : a.toNat = b.toNat
        · rcases ih bs with h | h
          · left; simp [lexLe, h1, h2, h]
          · right
            have hba : ¬b.toNat < a.toNat := by omega
            simp [lexLe, hba, h2.symm, h]
        · right
          have hba : b.toNat < a.toNat := by omega
          simp [lexLe, hba]

/-- The code-unit lexicographic order is transitive. -/
theorem lexLe_trans : ∀ (xs ys zs : List Char),
    lexLe xs ys = true → lexLe ys zs = true → lexLe xs zs = true := by
  intro xs
  induction xs with
  | nil => intro ys zs _ _; rfl
  | cons a as ih =>
    intro ys zs h1 h2
    cases ys with
    | nil => simp [lexLe] at h1
    | cons b bs =>
      cases zs with
      | nil => simp [lexLe] at h2
      | cons c cs =>
        simp only [lexLe] at h1 h2 ⊢
        by_cases hab : a.toNat < b.toNat
        · by_cases hbc : b.toNat < c.toNat
          · have : a.toNat < c.toNat := by omega
            simp [this]
          · by_cases hbc2 : b.toNat = c.toNat
            · have : a.toNat < c.toNat := by omega
              simp [this]
            · simp [hbc, hbc2] at h2
        · by_cases hab2 : a.toNat = b.toNat
          · by_cases hbc : b.toNat < c.toNat
            · have : a.toNat < c.toNat := by omega
              simp [this]
            · by_cases hbc2 : b.toNat = c.toNat
              · have hac : ¬a.toNat < c.toNat := by omega
                have hac2 : a.toNat = c.toNat := by omega
                simp [hab, hab2, hbc, hbc2] at h1 h2
                simp [hac, hac2]
                exact ih bs cs h1 h2
              · simp [hbc, hbc2] at h2
          · simp [hab, hab2] at h1

instance : IsTotal FileEntry fileLe where
  total a b := by
    unfold fileLe fileCmpLe
    cases ha : a.isDirectory <;> cases hb : b.isDirectory <;> simp <;>
      exact lexLe_total _ _

instance : IsTrans FileEntry fileLe where
  trans a b c hab hbc := by
    unfold fileLe fileCmpLe at hab hbc ⊢
    cases ha : a.isDirectory <;> cases hb : b.isDirectory <;>
      cases hc : c.isDirectory <;>
      simp [ha, hb, hc] at hab hbc ⊢ <;>
      exact lexLe_trans _ _ _ hab hbc

/-- C3: for every directory listing, the result hides dot-names, keeps
non-directories only when their lowercased extension is in the allowed
set, and is sorted by the directories-first case-insensitive order (in
particular every directory precedes every file); and `list("")` on a
root holding `b.txt`, `A.tex`, `.hidden` and the directory `sub`
returns exactly `[sub, A.tex, b.txt]`. -/
theorem c3_listing_filtered_and_sorted (entries : List DirEnt)
    (rel : String) :
    (∀ f ∈ processEntries rel entries, jsStartsWith f.name "." = false)
  ∧ (∀ f ∈ processEntries rel entries, f.isDirectory = false →
      (lowerStr (extname f.name)).asString ∈ ALLOWED_EXTENSIONS)
  ∧ (processEntries rel entries).Sorted fileLe
  ∧ (processEntries rel entries).Pairwise
      (fun a b => b.isDirectory = true → a.isDirectory = true)
  ∧ listFiles (some "/root") ""
      (fun p => if p = "/root" then
        some [⟨"b.txt", false⟩, ⟨"A.tex", false⟩, ⟨".hidden", false⟩,
              ⟨"sub", true⟩]
      else none) =
      (ListRes.ok "" "/root"
        [⟨"sub", "sub", true, false, false, false⟩,
         ⟨"A.tex", "A.tex", false, true, false, false⟩,
         ⟨"b.txt", "b.txt", false, true, false, false⟩],
       [FsOp.readdir "/root"]) := by
  have hsorted : (processEntries rel entries).Sorted fileLe :=
    List.sorted_insertionSort fileLe _
  refine ⟨?_, ?_, hsorted, ?_, by decide⟩
  · intro f hf
    unfold processEntries at hf
    rw [List.mem_insertionSort] at hf
    simp only [List.mem_map, List.mem_filter] at hf
    obtain ⟨e, ⟨⟨_, hhid⟩, _⟩, rfl⟩ := hf
    simpa using hhid
  · intro f hf hfile
    unfold processEntries at hf
    rw [List.mem_insertionSort] at hf
    simp only [List.mem_map, List.mem_filter] at hf
    obtain ⟨e, ⟨⟨_, _⟩, hext⟩, rfl⟩ := hf
    simp only at hfile
    rw [hfile] at hext
    simpa using hext
  · refine hsorted.imp ?_
    intro a b hab hb
    by_contra ha
    have ha2 : a.isDirectory = false := by
      cases h : a.isDirectory
      · rfl
      · exact absurd h ha
    unfold fileLe fileCmpLe at hab
    rw [ha2, hb] at hab
    simp at hab

/-- Witness for C3: instantiating the membership-conditioned parts at
the concrete fixture listing and its `A.tex` entry. -/
theorem c3_listing_filtered_and_sorted_witness :
    jsStartsWith
      (FileEntry.mk "A.tex" "A.tex" false true false false).name "." =
      false
  ∧ (lowerStr (extname
      (FileEntry.mk "A.tex" "A.tex" false true false false).name)).asString
      ∈ ALLOWED_EXTENSIONS
  ∧ (processEntries ""
      [⟨"b.txt", false⟩, ⟨"A.tex", false⟩, ⟨".hidden", false⟩,
       ⟨"sub", true⟩]).Sorted fileLe := by
  have h := c3_listing_filtered_and_sorted
    [⟨"b.txt", false⟩, ⟨"A.tex", false⟩, ⟨".hidden", false⟩,
     ⟨"sub", true⟩] ""
  refine ⟨h.1 _ ?_, h.2.1 _ ?_ rfl, h.2.2.1⟩
  · decide
  · decide

/-- `countClosed` distributes over append. -/
theorem countClosed_append (a b : List LEvt) :
    countClosed (a ++ b) = countClosed a + countClosed b := by
  induction a with
  | nil => simp [countClosed]
  | cons e es ih => cases e <;> simp [countClosed, ih] <;> omega

/-- Running from a state whose entry is gone and whose exit callback has
fired changes nothing and emits nothing. -/
theorem lrun_stuck (t : List LStep) (s : LState) (h1 : s.live = false)
    (h2 : s.exitFired = true) : lrun s t = (s, []) := by
  induction t with
  | nil => rfl
  | cons st rest ih => cases st <;> simp [lrun, lstep, h1, h2, ih]

/-- After the exit callback has fired, it never fires again: no further
`terminal-closed` event is emitted and `exitFired` stays set. -/
theorem lrun_after_fired (t : List LStep) (s : LState)
    (h : s.exitFired = true) :
    (lrun s t).1.exitFired = true ∧ countClosed (lrun s t).2 = 0 := by
  induction t generalizing s with
  | nil => exact ⟨h, rfl⟩
  | cons st rest ih =>
    cases st with
    | close =>
      by_cases hl : s.live <;>
        simp [lrun, lstep, hl, countClosed_append, countClosed] <;>
        exact ih _ h
    | exitEvt => simp [lrun, lstep, h]; exact ih _ h
    | input =>
      by_cases hl : s.live <;>
        simp [lrun, lstep, hl, countClosed_append, countClosed] <;>
        exact ih _ h
    | resize =>
      by_cases hl : s.live <;>
        simp [lrun, lstep, hl, countClosed_append, countClosed] <;>
        exact ih _ h

/-- From a state whose exit callback has not fired yet, the number of
`terminal-closed` events a run emits is exactly one when the run ends
with the callback fired, zero otherwise. -/
theorem lrun_closed_count (t : List LStep) (s : LState)
    (h : s.exitFired = false) :
    countClosed (lrun s t).2 =
      (if (lrun s t).1.exitFired then 1 else 0) := by
  induction t generalizing s with
  | nil => simp [lrun, countClosed, h]
  | cons st rest ih =>
    cases st with
    | close =>
      by_cases hl : s.live <;>
        simp [lrun, lstep, hl, countClosed_append, countClosed] <;>
        exact ih _ (by simpa using h)
    | exitEvt =>
      have hstep : lstep s .exitEvt =
          ({ live := false, procAlive := false, exitFired := true },
           [.closedEvt]) := by
        simp [lstep, h]
      have hrest := lrun_after_fired rest
        { live := false, procAlive := false, exitFired := true } rfl
      simp [lrun, hstep, countClosed_append, countClosed, hrest.1,
        hrest.2]
    | input =>
      by_cases hl : s.live <;>
        simp [lrun, lstep, hl, countClosed_append, countClosed] <;>
        exact ih _ h
    | resize =>
      by_cases hl : s.live <;>
        simp [lrun, lstep, hl, countClosed_append, countClosed] <;>
        exact ih _ h

/-- A run containing a delivery of the exit callback ends with
`exitFired` set. -/
theorem lrun_fired_of_mem (t : List LStep) (s : LState)
    (hmem : LStep.exitEvt ∈ t) : (lrun s t).1.exitFired = true := by
  induction t generalizing s with
  | nil => cases hmem
  | cons st rest ih =>
    cases st with
    | exitEvt =>
      by_cases hf : s.exitFired
      · simp [lrun, lstep, hf]
        exact (lrun_after_fired rest s hf).1
      · simp [lrun, lstep, hf]
        exact (lrun_after_fired rest _ rfl).1
    | close =>
      have hmem2 : LStep.exitEvt ∈ rest :=
        List.mem_of_ne_of_mem (by decide) hmem
      by_cases hl : s.live <;> simp [lrun, lstep, hl] <;> exact ih _ hmem2
    | input =>
      have hmem2 : LStep.exitEvt ∈ rest :=
        List.mem_of_ne_of_mem (by decide) hmem
      by_cases hl : s.live <;> simp [lrun, lstep, hl] <;> exact ih _ hmem2
    | resize =>
      have hmem2 : LStep.exitEvt ∈ rest :=
        List.mem_of_ne_of_mem (by decide) hmem
      by_cases hl : s.live <;> simp [lrun, lstep, hl] <;> exact ih _ hmem2

/-- The invariant "exit callback fired implies registry entry removed"
is preserved by every run. -/
theorem lrun_fired_implies_removed (t : List LStep) (s : LState)
    (hinv : s.exitFired = true → s.live = false) :
    (lrun s t).1.exitFired = true → (lrun s t).1.live = false := by
  induction t generalizing s with
  | nil => exact hinv
  | cons st rest ih =>
    cases st with
    | close =>
      by_cases hl : s.live
      · simp [lrun, lstep, hl]
        exact ih _ (fun _ => rfl)
      · simp [lrun, lstep, hl]
        exact ih _ hinv
    | exitEvt =>
      by_cases hf : s.exitFired
      · simp [lrun, lstep, hf]
        exact ih _ hinv
      · simp [lrun, lstep, hf]
        exact ih _ (by intro _; rfl)
    | input =>
      by_cases hl : s.live <;> simp [lrun, lstep, hl] <;> exact ih _ hinv
    | resize =>
      by_cases hl : s.live <;> simp [lrun, lstep, hl] <;> exact ih _ hinv

/-- Runs compose over list append. -/
theorem lrun_append (t1 t2 : List LStep) (s : LState) :
    lrun s (t1 ++ t2) =
      ((lrun (lrun s t1).1 t2).1,
       (lrun s t1).2 ++ (lrun (lrun s t1).1 t2).2) := by
  induction t1 generalizing s with
  | nil => simp [lrun]
  | cons st rest ih => simp [lrun, ih]

/-- C7: over any sequence of requests and callback deliveries for one
successfully created session, (1) never more than one `terminal-closed`
event is emitted; (2) once the exit delivery (caller-initiated kill or
spontaneous death) occurs in the sequence, exactly one `terminal-closed`
event has been emitted; (3) whenever a `terminal-closed` event has been
emitted, the registry entry is already removed; and (4) steps after the
exit delivery emit nothing at all — in particular no input or resize
reaches the dead handle. -/
theorem c7_exactly_one_closed (t t2 : List LStep) :
    countClosed (lrun linit t).2 ≤ 1
  ∧ (LStep.exitEvt ∈ t → countClosed (lrun linit t).2 = 1)
  ∧ (1 ≤ countClosed (lrun linit t).2 → (lrun linit t).1.live = false)
  ∧ (lrun linit (t ++ LStep.exitEvt :: t2)).2 =
      (lrun linit (t ++ [LStep.exitEvt])).2 := by
  have hcount := lrun_closed_count t linit rfl
  refine ⟨?_, ?_, ?_, ?_⟩
  · rw [hcount]
    split <;> omega
  · intro hmem
    rw [hcount, lrun_fired_of_mem t linit hmem]
    rfl
  · intro hone
    have hfired : (lrun linit t).1.exitFired = true := by
      rw [hcount] at hone
      by_contra hf
      simp [hf] at hone
    exact lrun_fired_implies_removed t linit (by intro h; cases h) hfired
  · have hsplit : t ++ LStep.exitEvt :: t2 = (t ++ [LStep.exitEvt]) ++ t2 := by
      simp
    have hmid := lrun_fired_of_mem (t ++ [LStep.exitEvt]) linit (by simp)
    have hlive := lrun_fired_implies_removed (t ++ [LStep.exitEvt]) linit
      (by intro h; cases h) hmid
    rw [hsplit, lrun_append,
      lrun_stuck t2 (lrun linit (t ++ [LStep.exitEvt])).1 hlive hmid]
    simp

/-- Witness for C7 on a caller-initiated closure followed by the exit
delivery and a late input request. -/
theorem c7_exactly_one_closed_witness :
    countClosed (lrun linit [LStep.close, LStep.exitEvt]).2 = 1
  ∧ (lrun linit [LStep.close, LStep.exitEvt]).1.live = false
  ∧ (lrun linit ([LStep.close] ++ LStep.exitEvt :: [LStep.input])).2 =
      (lrun linit ([LStep.close] ++ [LStep.exitEvt])).2 := by
  have h := c7_exactly_one_closed [LStep.close, LStep.exitEvt]
    [LStep.input]
  have h2 := c7_exactly_one_closed [LStep.close] [LStep.input]
  exact ⟨h.2.1 (by decide), h.2.2.1 (by decide), h2.2.2.2⟩
